/-
Verification of the "gestion_turnos" appointment-management system.

The development shallowly embeds the TypeScript source:
- the data-access layer `src/lib/turnos.ts` (crearTurno, listarTurnos,
  verificarDisponibilidad, cancelarTurno, obtenerTurnoPorId) over a Supabase
  ("turnos" table) store, whose schema and partial unique index
  `unique_turno_activo ON turnos(fecha, hora) WHERE estado = 'confirmado'`
  come from the SQL setup script;
- the validator module (validarFormatoFecha, validarFormatoHora,
  validarFechaFutura, validarFechaHoraFutura);
- the agent tools (toolReservarTurno, toolListarTurnos, toolCancelarTurno).

The store is modeled as a list of rows; each Supabase round trip is one atomic
step on that list.  Template strings returned to the user are modeled as
inductive message values, one constructor per template, carrying the
interpolated data.  The JavaScript runtime behavior the code relies on
(`new Date(...)` parsing, supabase-js `.single()` semantics) is modeled where
the code calls into it, as documented on the corresponding definitions.
-/
import Mathlib

/-! ## Character and string ordering

`String`'s built-in order does not reduce in the kernel, so we use an
explicit lexicographic comparison on the character list.  The database
compares DATE / TIME columns chronologically; on the zero-padded
`YYYY-MM-DD` / `HH:MM` strings stored here this coincides with
lexicographic string order. -/

def charLtB (a b : Char) : Bool := decide (a < b)

/-- Strict lexicographic order on character lists. -/
def lexLt : List Char → List Char → Bool
  | [], [] => false
  | [], _ :: _ => true
  | _ :: _, [] => false
  | a :: as, b :: bs => charLtB a b || (a == b && lexLt as bs)

def strLt (a b : String) : Bool := lexLt a.data b.data

def strLe (a b : String) : Bool := a == b || strLt a b

theorem charLtB_asymm {a b : Char} (h : charLtB a b = true) : charLtB b a = false := by
  simp only [charLtB, decide_eq_true_eq] at h
  simp only [charLtB, decide_eq_false_iff_not]
  exact fun h2 => Char.lt_asymm h h2

theorem charLtB_trans {a b c : Char} (h1 : charLtB a b = true) (h2 : charLtB b c = true) :
    charLtB a c = true := by
  simp only [charLtB, decide_eq_true_eq] at h1 h2 ⊢
  exact Char.lt_trans h1 h2

theorem charLtB_connex {a b : Char} (h1 : charLtB a b = false) (h2 : charLtB b a = false) :
    a = b := by
  simp only [charLtB, decide_eq_false_iff_not] at h1 h2
  rw [Char.not_lt] at h1 h2
  exact Char.le_antisymm h2 h1

theorem lexLt_irrefl : ∀ as : List Char, lexLt as as = false := by
  intro as
  induction as with
  | nil => rfl
  | cons a as ih =>
    simp only [lexLt, Bool.or_eq_false_iff, Bool.and_eq_false_iff]
    refine ⟨?_, Or.inr ih⟩
    simp [charLtB, Char.lt_irrefl]

theorem lexLt_antisymm : ∀ {as bs : List Char}, lexLt as bs = true → lexLt bs as = true → False := by
  intro as
  induction as with
  | nil => intro bs h1 h2; cases bs <;> simp [lexLt] at h1 h2
  | cons a as ih =>
    intro bs h1 h2
    cases bs with
    | nil => simp [lexLt] at h1
    | cons b bs =>
      simp only [lexLt, Bool.or_eq_true, Bool.and_eq_true, beq_iff_eq] at h1 h2
      rcases h1 with h1 | ⟨hab, h1⟩
      · rcases h2 with h2 | ⟨hba, h2⟩
        · rw [charLtB_asymm h1] at h2; exact Bool.false_ne_true h2
        · subst hba; simp [charLtB, Char.lt_irrefl] at h1
      · rcases h2 with h2 | ⟨hba, h2⟩
        · subst hab; simp [charLtB, Char.lt_irrefl] at h2
        · exact ih h1 h2

theorem lexLt_trans : ∀ {as bs cs : List Char},
    lexLt as bs = true → lexLt bs cs = true → lexLt as cs = true := by
  intro as
  induction as with
  | nil =>
    intro bs cs h1 h2
    cases bs with
    | nil => simp [lexLt] at h1
    | cons b bs => cases cs with
      | nil => simp [lexLt] at h2
      | cons c cs => simp [lexLt]
  | cons a as ih =>
    intro bs cs h1 h2
    cases bs with
    | nil => simp [lexLt] at h1
    | cons b bs =>
      cases cs with
      | nil => simp [lexLt] at h2
      | cons c cs =>
        simp only [lexLt, Bool.or_eq_true, Bool.and_eq_true, beq_iff_eq] at h1 h2 ⊢
        rcases h1 with h1 | ⟨hab, h1⟩
        · rcases h2 with h2 | ⟨hbc, h2⟩
          · exact Or.inl (charLtB_trans h1 h2)
          · subst hbc; exact Or.inl h1
        · rcases h2 with h2 | ⟨hbc, h2⟩
          · subst hab; exact Or.inl h2
          · subst hab; subst hbc; exact Or.inr ⟨rfl, ih h1 h2⟩

theorem lexLt_connex : ∀ {as bs : List Char},
    lexLt as bs = false → lexLt bs as = false → as = bs := by
  intro as
  induction as with
  | nil =>
    intro bs h1 h2
    cases bs with
    | nil => rfl
    | cons b bs => simp [lexLt] at h1
  | cons a as ih =>
    intro bs h1 h2
    cases bs with
    | nil => simp [lexLt] at h2
    | cons b bs =>
      simp only [lexLt, Bool.or_eq_false_iff, Bool.and_eq_false_iff, beq_iff_eq,
        beq_eq_false_iff_ne, ne_eq] at h1 h2
      obtain ⟨hab, h1r⟩ := h1
      obtain ⟨hba, h2r⟩ := h2
      have hab' : a = b := charLtB_connex hab hba
      subst hab'
      rcases h1r with h1r | h1r
      · exact absurd rfl h1r
      · rcases h2r with h2r | h2r
        · exact absurd rfl h2r
        · rw [ih h1r h2r]

theorem strLe_antisymm {a b : String} (h1 : strLe a b = true) (h2 : strLe b a = true) :
    a = b := by
  simp only [strLe, Bool.or_eq_true, beq_iff_eq] at h1 h2
  rcases h1 with h1 | h1
  · exact h1
  · rcases h2 with h2 | h2
    · exact h2.symm
    · exact absurd (lexLt_antisymm h1 h2) (fun h => h)

theorem strLt_connex {a b : String} (h1 : strLt a b = false) (h2 : strLt b a = false) :
    a = b := by
  have := lexLt_connex h1 h2
  cases a; cases b; exact congrArg String.mk this

theorem strLe_total (a b : String) : strLe a b = true ∨ strLe b a = true := by
  simp only [strLe, Bool.or_eq_true, beq_iff_eq]
  by_cases h1 : strLt a b = true
  · exact Or.inl (Or.inr h1)
  · by_cases h2 : strLt b a = true
    · exact Or.inr (Or.inr h2)
    · exact Or.inl (Or.inl (strLt_connex (Bool.eq_false_iff.mpr h1) (Bool.eq_false_iff.mpr h2)))

theorem strLe_trans {a b c : String} (h1 : strLe a b = true) (h2 : strLe b c = true) :
    strLe a c = true := by
  simp only [strLe, Bool.or_eq_true, beq_iff_eq] at h1 h2 ⊢
  rcases h1 with h1 | h1
  · subst h1; exact h2
  · rcases h2 with h2 | h2
    · subst h2; exact Or.inr h1
    · exact Or.inr (lexLt_trans h1 h2)

/-! ## Digit characters -/

/-- Character class `[0-9]` of the validation regexes. -/
def esDigito (c : Char) : Bool := '0' ≤ c && c ≤ '9'

/-- The decimal digit character for `n` (meaningful for `n ≤ 9`). -/
def dChar (n : Nat) : Char := Char.ofNat (48 + n)

/-- Numeric value of a digit character. -/
def dVal (c : Char) : Nat := c.toNat - 48

theorem esDigito_elim {c : Char} (h : esDigito c = true) :
    dVal c ≤ 9 ∧ c = dChar (dVal c) := by
  simp only [esDigito, Bool.and_eq_true, decide_eq_true_eq] at h
  obtain ⟨h1, h2⟩ := h
  rw [Char.le_def, UInt32.le_def, BitVec.le_def] at h1 h2
  have hn1 : 48 ≤ c.toNat := h1
  have hn2 : c.toNat ≤ 57 := h2
  constructor
  · simp only [dVal]; omega
  · have h48 : 48 + (c.toNat - 48) = c.toNat := by omega
    rw [dVal, dChar, h48, Char.ofNat_toNat]

theorem esDigito_dChar {n : Nat} (h : n ≤ 9) : esDigito (dChar n) = true := by
  interval_cases n <;> decide

theorem dVal_dChar {n : Nat} (h : n ≤ 9) : dVal (dChar n) = n := by
  interval_cases n <;> decide

/-! ## Data model

From the `Turno` interface in `src/lib/turnos.ts` and the SQL schema: a row of
the `turnos` table.  `estado` is the CHECK-constrained enum
`('confirmado', 'cancelado')`. -/

inductive Estado where
  | confirmado
  | cancelado
deriving DecidableEq

structure Turno where
  id : String
  fecha : String
  hora : String
  nombre_cliente : String
  email : String
  estado : Estado
  created_at : String
deriving DecidableEq

/-- The `NuevoTurno` interface: creation payload, `estado` optional. -/
structure NuevoTurno where
  fecha : String
  hora : String
  nombre_cliente : String
  email : String
  estado : Option Estado
deriving DecidableEq

/-- The `turnos` table, as the ordered list of its rows. -/
abbrev Store := List Turno

/-! ## Validators (the validation module)

`validarFormatoHora` tests the regex `^([01]?[0-9]|2[0-3]):[0-5][0-9]$`,
transcribed case-by-case on the character list: either a single hour digit
(`[01]?` absent) or two hour digits. -/

def minutosOk (m1 m2 : Char) : Bool := ('0' ≤ m1 && m1 ≤ '5') && esDigito m2

def validarFormatoHora (hora : String) : Bool :=
  match hora.data with
  | [d, ':', m1, m2] => esDigito d && minutosOk m1 m2
  | [h, d, ':', m1, m2] =>
      (((h == '0' || h == '1') && esDigito d) ||
        (h == '2' && ('0' ≤ d && d ≤ '3'))) && minutosOk m1 m2
  | _ => false

/-- Gregorian leap-year rule, as used by the JavaScript `Date` object. -/
def esBisiesto (y : Nat) : Bool := (y % 4 == 0 && y % 100 != 0) || y % 400 == 0

def diasEnMes (y m : Nat) : Nat :=
  if m == 2 then (if esBisiesto y then 29 else 28)
  else if m == 4 || m == 6 || m == 9 || m == 11 then 30
  else 31

/-- Validity of the year-month-day triple as a real calendar date.  This models
the check `!isNaN(new Date(fecha).getTime())` that `validarFormatoFecha`
performs after its regex test: for a string already matching
`^\d{4}-\d{2}-\d{2}$`, the ECMAScript Date Time String Format parser (V8)
yields a valid time value exactly when the month is 01-12 and the day is
01 to the length of that month (so `"2024-02-30"` parses to an Invalid
Date). -/
def fechaRealEnCalendario (y m d : Nat) : Bool :=
  (1 ≤ m && m ≤ 12) && (1 ≤ d && d ≤ diasEnMes y m)

/-- Parse of a `YYYY-MM-DD` string: the regex `^\d{4}-\d{2}-\d{2}$` together
with the modeled `new Date(fecha)` validity check; returns the (year, month,
day) triple the JavaScript runtime resolves the string to. -/
def parseFecha (fecha : String) : Option (Nat × Nat × Nat) :=
  match fecha.data with
  | [y1, y2, y3, y4, '-', mo1, mo2, '-', d1, d2] =>
    if esDigito y1 && esDigito y2 && esDigito y3 && esDigito y4 &&
        esDigito mo1 && esDigito mo2 && esDigito d1 && esDigito d2 then
      let y := ((dVal y1 * 10 + dVal y2) * 10 + dVal y3) * 10 + dVal y4
      let m := dVal mo1 * 10 + dVal mo2
      let d := dVal d1 * 10 + dVal d2
      if fechaRealEnCalendario y m d then some (y, m, d) else none
    else none
  | _ => none

/-- The source function: regex test on `YYYY-MM-DD`, then construction of a
`Date` and rejection when `getTime()` is NaN. -/
def validarFormatoFecha (fecha : String) : Bool := (parseFecha fecha).isSome

/-- A wall-clock instant at minute granularity, standing for `new Date()` in a
fixed (UTC) service time zone. -/
structure Instante where
  y : Nat
  m : Nat
  d : Nat
  hh : Nat
  mi : Nat
deriving DecidableEq

/-- Calendar-day lexicographic comparison, `a <= b`. -/
def diaLe : Nat × Nat × Nat → Nat × Nat × Nat → Bool
  | (y1, m1, d1), (y2, m2, d2) =>
    y1 < y2 || (y1 == y2 && (m1 < m2 || (m1 == m2 && d1 ≤ d2)))

/-- Minute-instant lexicographic comparison, `a < b`. -/
def instanteLt (a b : Instante) : Bool :=
  a.y < b.y || (a.y == b.y && (a.m < b.m || (a.m == b.m &&
    (a.d < b.d || (a.d == b.d && (a.hh < b.hh || (a.hh == b.hh && a.mi < b.mi)))))))

/-- The source compares `new Date(fecha)` (with the time components reset)
against today's date: `fechaTurno >= hoy` at day granularity.  The function is
only ever invoked after `validarFormatoFecha` has accepted `fecha`, so the
parse is modeled on that domain; an unparseable date compares as NaN in
JavaScript and yields false. -/
def validarFechaFutura (fecha : String) (hoy : Nat × Nat × Nat) : Bool :=
  match parseFecha fecha with
  | some f => diaLe hoy f
  | none => false

/-- Modeled validity and value of the time component of
`new Date(fecha + "T" + hora)`: a zero-padded `HH:MM` with hours 00-23 and
minutes 00-59.  As with `validarFechaFutura`, the tools only invoke this
after `validarFormatoHora` has accepted `hora`. -/
def parseHoraISO (hora : String) : Option (Nat × Nat) :=
  match hora.data with
  | [h1, h2, ':', m1, m2] =>
    if esDigito h1 && esDigito h2 && esDigito m1 && esDigito m2 then
      let hh := dVal h1 * 10 + dVal h2
      let mi := dVal m1 * 10 + dVal m2
      if hh ≤ 23 && mi ≤ 59 then some (hh, mi) else none
    else none
  | _ => none

/-- The source builds `new Date(fecha + "T" + hora)` and requires it to be
strictly after `new Date()` (full-timestamp comparison); a NaN combined
date-time compares false. -/
def validarFechaHoraFutura (fecha hora : String) (ahora : Instante) : Bool :=
  match parseFecha fecha, parseHoraISO hora with
  | some (y, m, d), some (hh, mi) => instanteLt ahora ⟨y, m, d, hh, mi⟩
  | _, _ => false

/-! ## Database layer

Each definition models one Supabase round trip (a single PostgREST request,
atomic on the Postgres side). -/

/-- Database-side errors surfaced through the supabase-js `error` field. -/
inductive DbError where
  | uniqueViolation
  | pgrst116
deriving DecidableEq

/-- Row matching for the partial unique index `unique_turno_activo` and for
availability queries: same slot, estado 'confirmado'. -/
def coincideActivo (fecha hora : String) (t : Turno) : Bool :=
  t.fecha == fecha && t.hora == hora && t.estado == .confirmado

/-- The confirmed rows occupying a slot. -/
def activosEn (s : Store) (fecha hora : String) : List Turno :=
  s.filter (coincideActivo fecha hora)

/-- `INSERT ... RETURNING` under the partial unique index
`unique_turno_activo ON turnos(fecha, hora) WHERE estado = 'confirmado'`:
inserting a confirmed row into an occupied slot fails atomically with a
unique-constraint violation; any other insert appends the row. -/
def dbInsert (s : Store) (t : Turno) : Except DbError Store :=
  if t.estado == .confirmado && !(activosEn s t.fecha t.hora).isEmpty then
    .error .uniqueViolation
  else
    .ok (s ++ [t])

/-- Result shape of a supabase-js query ending in `.single()`: when the
request matches exactly one row, `data` holds it and `error` is null; when it
matches zero (or several) rows, PostgREST rejects the object representation
and supabase-js reports error code PGRST116 with `data` null.  (The
repository relies on exactly this in `obtenerTurnoPorId`, which treats
PGRST116 as not-found.) -/
structure RespuestaSingle where
  data : Option Turno
  error : Option DbError

/-- `UPDATE turnos SET estado = 'cancelado' WHERE id = ... RETURNING`,
ending in `.single()`.  The update itself touches every matching row; with
zero matches nothing changes and the `.single()` representation fails with
PGRST116 (several matches cannot arise because `id` is the primary key; the
transaction would roll back on the representation error). -/
def dbUpdateCancelarSingle (s : Store) (id : String) : RespuestaSingle × Store :=
  match s.filter (fun t => t.id == id) with
  | [t] => (⟨some { t with estado := .cancelado }, none⟩,
      s.map (fun t => if t.id == id then { t with estado := .cancelado } else t))
  | _ => (⟨none, some .pgrst116⟩, s)

/-- `SELECT * WHERE id = ...` ending in `.single()`. -/
def dbSelectPorIdSingle (s : Store) (id : String) : RespuestaSingle :=
  match s.filter (fun t => t.id == id) with
  | [t] => ⟨some t, none⟩
  | _ => ⟨none, some .pgrst116⟩

/-! ## Data-access functions (`src/lib/turnos.ts`)

Each `throw new Error(...)` template of the module is one constructor,
carrying the interpolated data. -/

inductive LibError where
  | errorAlCrear (e : DbError)
  | errorAlListar (e : DbError)
  | errorAlCancelar (e : DbError)
  | noSeEncontroTurno (id : String)
  | errorAlObtener (e : DbError)
deriving DecidableEq

/-- `crearTurno`: inserts the payload with `estado: turno.estado || "confirmado"`;
a database error is rethrown as the generic
`Error al crear turno: ${error.message}`.  The database generates `id` and
`created_at`; the model receives them as parameters. -/
def crearTurno (s : Store) (nt : NuevoTurno) (genId creadoEn : String) :
    Except LibError (Turno × Store) :=
  let fila : Turno :=
    ⟨genId, nt.fecha, nt.hora, nt.nombre_cliente, nt.email,
      nt.estado.getD .confirmado, creadoEn⟩
  match dbInsert s fila with
  | .error e => .error (.errorAlCrear e)
  | .ok s2 => .ok (fila, s2)

/-- `verificarDisponibilidad`: selects ids at the slot with
`estado = 'confirmado'` (limit 1) and returns true exactly when no row
matches. -/
def verificarDisponibilidad (s : Store) (fecha hora : String) : Bool :=
  (activosEn s fecha hora).isEmpty

/-- The WHERE clauses of `listarTurnos`: optional `gte("fecha", desde)`,
optional `lte("fecha", hasta)`, and `eq("estado", 'confirmado')` when
`soloConfirmados`. -/
def filtroListar (desde hasta : Option String) (solo : Bool) (t : Turno) : Bool :=
  (match desde with | some f => strLe f t.fecha | none => true) &&
  (match hasta with | some h => strLe t.fecha h | none => true) &&
  (!solo || t.estado == .confirmado)

/-- Row order of `ORDER BY fecha ASC, hora ASC`. -/
def turnoLe (a b : Turno) : Prop :=
  (strLt a.fecha b.fecha || (a.fecha == b.fecha && strLe a.hora b.hora)) = true

instance : DecidableRel turnoLe := fun a b => instDecidableEqBool _ _

instance : IsTotal Turno turnoLe where
  total a b := by
    simp only [turnoLe, Bool.or_eq_true, Bool.and_eq_true, beq_iff_eq]
    by_cases hf : a.fecha = b.fecha
    · rcases strLe_total a.hora b.hora with h | h
      · exact Or.inl (Or.inr ⟨hf, h⟩)
      · exact Or.inr (Or.inr ⟨hf.symm, h⟩)
    · by_cases h1 : strLt a.fecha b.fecha = true
      · exact Or.inl (Or.inl h1)
      · by_cases h2 : strLt b.fecha a.fecha = true
        · exact Or.inr (Or.inl h2)
        · exact absurd
            (strLt_connex (Bool.eq_false_iff.mpr h1) (Bool.eq_false_iff.mpr h2)) hf

instance : IsTrans Turno turnoLe where
  trans a b c h1 h2 := by
    simp only [turnoLe, Bool.or_eq_true, Bool.and_eq_true, beq_iff_eq] at h1 h2 ⊢
    rcases h1 with h1 | ⟨he1, hh1⟩
    · rcases h2 with h2 | ⟨he2, hh2⟩
      · exact Or.inl (lexLt_trans h1 h2)
      · exact Or.inl (he2 ▸ h1)
    · rcases h2 with h2 | ⟨he2, hh2⟩
      · exact Or.inl (he1 ▸ h2)
      · exact Or.inr ⟨he1.trans he2, strLe_trans hh1 hh2⟩

/-- `listarTurnos`: filter then order; modeled with a stable sort. -/
def listarTurnos (s : Store) (desde hasta : Option String) (solo : Bool) : List Turno :=
  List.insertionSort turnoLe (s.filter (filtroListar desde hasta solo))

/-- `cancelarTurno`: update-to-cancelado returning `.single()`; a database
error is rethrown as `Error al cancelar turno: ${error.message}`, and a null
`data` as `No se encontró el turno con id: ${turnoId}`.  The pair carries the
store state after the round trip. -/
def cancelarTurno (s : Store) (id : String) : Except LibError Turno × Store :=
  let r := dbUpdateCancelarSingle s id
  match r.1.error with
  | some e => (.error (.errorAlCancelar e), r.2)
  | none =>
    match r.1.data with
    | none => (.error (.noSeEncontroTurno id), r.2)
    | some t => (.ok t, r.2)

/-- `obtenerTurnoPorId`: select by id with `.single()`; error code PGRST116
means not found and yields null, any other database error is rethrown as
`Error al obtener turno: ${error.message}`. -/
def obtenerTurnoPorId (s : Store) (id : String) : Except LibError (Option Turno) :=
  let r := dbSelectPorIdSingle s id
  match r.error with
  | some e => if e == .pgrst116 then .ok none else .error (.errorAlObtener e)
  | none => .ok r.data

/-! ## Agent tools (the tools module)

Each user-facing template string of a tool is one message constructor,
carrying the interpolated data. -/

/-- Arguments of `toolReservarTurno.execute` (already past the zod schema). -/
structure ReservaArgs where
  fecha : String
  hora : String
  nombre_cliente : String
  email : String
deriving DecidableEq

inductive MensajeReservar where
  | fechaFormatoInvalido (fecha : String)
  | horaFormatoInvalida (hora : String)
  | fechaPasada (fecha : String)
  | fechaHoraPasada (fecha hora : String)
  | sinDisponibilidad (fecha hora : String)
  | reservaExitosa (fecha hora tid : String) (emailEnviado : Bool)
  | errorAlReservar (e : LibError)
deriving DecidableEq

/-- One of the four fail-fast validation rejections. -/
def esMensajeValidacion : MensajeReservar → Bool
  | .fechaFormatoInvalido _ => true
  | .horaFormatoInvalida _ => true
  | .fechaPasada _ => true
  | .fechaHoraPasada _ _ => true
  | _ => false

/-- The template `Lo siento, no hay disponibilidad el ... a las ...` — the
only reserve outcome that tells the user the slot is taken. -/
def esSinDisponibilidad : MensajeReservar → Bool
  | .sinDisponibilidad _ _ => true
  | _ => false

/-- Return shape of `toolReservarTurno.execute`; `turno` is the
`{id, fecha, hora}` payload attached on success. -/
structure ReservarOutput where
  exito : Bool
  mensaje : MensajeReservar
  turno : Option (String × String × String)
deriving DecidableEq

def diaDe (i : Instante) : Nat × Nat × Nat := (i.y, i.m, i.d)

/-- First half of `toolReservarTurno.execute`, up to and including its only
read of the store: the four fail-fast validations, then
`verificarDisponibilidad`.  (The business-hours advisory between them only
writes a console log — it never changes the result or the store.) -/
inductive PasoReservar where
  | rechazo (m : MensajeReservar)
  | continuar (disponible : Bool)
deriving DecidableEq

def reservarCheck (ahora : Instante) (s : Store) (a : ReservaArgs) : PasoReservar :=
  if !validarFormatoFecha a.fecha then .rechazo (.fechaFormatoInvalido a.fecha)
  else if !validarFormatoHora a.hora then .rechazo (.horaFormatoInvalida a.hora)
  else if !validarFechaFutura a.fecha (diaDe ahora) then .rechazo (.fechaPasada a.fecha)
  else if !validarFechaHoraFutura a.fecha a.hora ahora then
    .rechazo (.fechaHoraPasada a.fecha a.hora)
  else .continuar (verificarDisponibilidad s a.fecha a.hora)

/-- Second half of `toolReservarTurno.execute`, from the availability test to
the return: refuse when the earlier read said the slot was taken, otherwise
`crearTurno` (the store write) and then the confirmation email.
`enviarEmailConfirmacion` catches its own transport errors and returns a
boolean, so its outcome enters as the parameter `emailOk`; a caught
`crearTurno` error becomes the generic failure template
`Hubo un error al reservar el turno: ${error.message}`. -/
def reservarCommit (genId creadoEn : String) (emailOk : Bool) (s : Store)
    (a : ReservaArgs) (disponible : Bool) : ReservarOutput × Store :=
  if !disponible then
    (⟨false, .sinDisponibilidad a.fecha a.hora, none⟩, s)
  else
    match crearTurno s ⟨a.fecha, a.hora, a.nombre_cliente, a.email, some .confirmado⟩
        genId creadoEn with
    | .ok (t, s2) =>
      (⟨true, .reservaExitosa a.fecha a.hora t.id emailOk, some (t.id, t.fecha, t.hora)⟩, s2)
    | .error e => (⟨false, .errorAlReservar e, none⟩, s)

/-- `toolReservarTurno.execute` as a single sequential call. -/
def toolReservarTurno (ahora : Instante) (genId creadoEn : String) (emailOk : Bool)
    (s : Store) (a : ReservaArgs) : ReservarOutput × Store :=
  match reservarCheck ahora s a with
  | .rechazo m => (⟨false, m, none⟩, s)
  | .continuar d => reservarCommit genId creadoEn emailOk s a d

/-! ### toolListarTurnos -/

structure TurnoResumen where
  id : String
  fecha : String
  hora : String
  nombre_cliente : String
  email : String
deriving DecidableEq

def resumen (t : Turno) : TurnoResumen :=
  ⟨t.id, t.fecha, t.hora, t.nombre_cliente, t.email⟩

inductive MensajeListar where
  | fechaFormatoInvalido (fecha : String)
  | sinTurnos (desde hasta : String)
  | turnosEncontrados (n : Nat) (desde hasta : String)
deriving DecidableEq

structure ListarOutput where
  cantidad : Nat
  mensaje : MensajeListar
  turnos : List TurnoResumen
deriving DecidableEq

/-- JavaScript `x || d` on an optional string: the empty string is falsy. -/
def jsOr (o : Option String) (d : String) : String :=
  match o with
  | some s => if s == "" then d else s
  | none => d

/-- JavaScript truthiness of an optional string argument. -/
def esTruthy (o : Option String) : Bool :=
  match o with
  | some s => s != ""
  | none => false

/-- `toolListarTurnos.execute`: defaults `fechaDesde` to today and
`fechaHasta` to `fechaDesde`, validates the formats of supplied arguments,
then lists confirmed turnos in the range; `hoyStr` is
`new Date().toISOString().split("T")[0]`.  The tool only reads the store. -/
def toolListarTurnos (hoyStr : String) (s : Store)
    (fechaDesde fechaHasta : Option String) : ListarOutput :=
  let desde := jsOr fechaDesde hoyStr
  let hasta := jsOr fechaHasta desde
  if esTruthy fechaDesde && !validarFormatoFecha (fechaDesde.getD "") then
    ⟨0, .fechaFormatoInvalido (fechaDesde.getD ""), []⟩
  else if esTruthy fechaHasta && !validarFormatoFecha (fechaHasta.getD "") then
    ⟨0, .fechaFormatoInvalido (fechaHasta.getD ""), []⟩
  else
    let ts := listarTurnos s (some desde) (some hasta) true
    if ts.length == 0 then
      ⟨0, .sinTurnos desde hasta, []⟩
    else
      ⟨ts.length, .turnosEncontrados ts.length desde hasta, ts.map resumen⟩

/-! ### toolCancelarTurno -/

inductive MensajeCancelar where
  | cancelado (fecha hora : String)
  | noSePudo (e : LibError)
deriving DecidableEq

structure CancelarOutput where
  exito : Bool
  mensaje : MensajeCancelar
deriving DecidableEq

/-- `toolCancelarTurno.execute`: calls `cancelarTurno` and catches any thrown
error into the failure template
`No se pudo cancelar el turno: ${error.message}. Verifica que el ID del turno
sea correcto.` (which interpolates only the caught message). -/
def toolCancelarTurno (s : Store) (id : String) : CancelarOutput × Store :=
  match cancelarTurno s id with
  | (.ok t, s2) => (⟨true, .cancelado t.fecha t.hora⟩, s2)
  | (.error e, s2) => (⟨false, .noSePudo e⟩, s2)

/-! ## Two concurrent reserve calls

A reserve call interacts with the store exactly twice — the availability
read in `reservarCheck` and the insert in `reservarCommit` — and each of
those is one atomic round trip.  Two concurrent calls therefore execute as
an interleaving of these four atomic events that keeps each call's read
before its own write; `PlanCarrera` below enumerates the six such orders. -/

structure Llamada where
  args : ReservaArgs
  genId : String
  creadoEn : String
  emailOk : Bool
deriving DecidableEq

/-- The row a successful reserve call inserts. -/
def filaDe (c : Llamada) : Turno :=
  ⟨c.genId, c.args.fecha, c.args.hora, c.args.nombre_cliente, c.args.email,
    .confirmado, c.creadoEn⟩

/-- Finish a call whose check step produced `p`, against store `s`.  A
rejected call performs no second store round trip. -/
def pasoFinal (c : Llamada) (s : Store) (p : PasoReservar) : ReservarOutput × Store :=
  match p with
  | .rechazo m => (⟨false, m, none⟩, s)
  | .continuar d => reservarCommit c.genId c.creadoEn c.emailOk s c.args d

/-- The six orders of the four store events (Ai = check of call i,
Bi = commit of call i) with A1 before B1 and A2 before B2. -/
inductive PlanCarrera where
  | a1b1a2b2
  | a1a2b1b2
  | a1a2b2b1
  | a2a1b1b2
  | a2a1b2b1
  | a2b2a1b1
deriving DecidableEq

/-- Interleaved execution of two reserve calls from store `s0`, returning
the two outputs and the final store. -/
def runDos (ahora : Instante) (s0 : Store) (c1 c2 : Llamada) (p : PlanCarrera) :
    ReservarOutput × ReservarOutput × Store :=
  match p with
  | .a1b1a2b2 =>
    let p1 := reservarCheck ahora s0 c1.args
    let (o1, s1) := pasoFinal c1 s0 p1
    let p2 := reservarCheck ahora s1 c2.args
    let (o2, s2) := pasoFinal c2 s1 p2
    (o1, o2, s2)
  | .a1a2b1b2 =>
    let p1 := reservarCheck ahora s0 c1.args
    let p2 := reservarCheck ahora s0 c2.args
    let (o1, s1) := pasoFinal c1 s0 p1
    let (o2, s2) := pasoFinal c2 s1 p2
    (o1, o2, s2)
  | .a1a2b2b1 =>
    let p1 := reservarCheck ahora s0 c1.args
    let p2 := reservarCheck ahora s0 c2.args
    let (o2, s1) := pasoFinal c2 s0 p2
    let (o1, s2) := pasoFinal c1 s1 p1
    (o1, o2, s2)
  | .a2a1b1b2 =>
    let p2 := reservarCheck ahora s0 c2.args
    let p1 := reservarCheck ahora s0 c1.args
    let (o1, s1) := pasoFinal c1 s0 p1
    let (o2, s2) := pasoFinal c2 s1 p2
    (o1, o2, s2)
  | .a2a1b2b1 =>
    let p2 := reservarCheck ahora s0 c2.args
    let p1 := reservarCheck ahora s0 c1.args
    let (o2, s1) := pasoFinal c2 s0 p2
    let (o1, s2) := pasoFinal c1 s1 p1
    (o1, o2, s2)
  | .a2b2a1b1 =>
    let p2 := reservarCheck ahora s0 c2.args
    let (o2, s1) := pasoFinal c2 s0 p2
    let p1 := reservarCheck ahora s1 c1.args
    let (o1, s2) := pasoFinal c1 s1 p1
    (o1, o2, s2)

/-! ## Specification-side string builders

Decimal renderings used to state what the format validators accept. -/

/-- The zero-padded `HH:MM` rendering of an (hour, minute) pair. -/
def horaConPad (h m : Nat) : String :=
  String.mk [dChar (h / 10), dChar (h % 10), ':', dChar (m / 10), dChar (m % 10)]

/-- The `H:MM` rendering with a single unpadded hour digit. -/
def horaSinPad (h m : Nat) : String :=
  String.mk [dChar h, ':', dChar (m / 10), dChar (m % 10)]

/-- The `YYYY-MM-DD` rendering of a (year, month, day) triple. -/
def fechaStr (y m d : Nat) : String :=
  String.mk [dChar (y / 1000), dChar (y / 100 % 10), dChar (y / 10 % 10), dChar (y % 10),
    '-', dChar (m / 10), dChar (m % 10), '-', dChar (d / 10), dChar (d % 10)]

/-! ## Digit-range lemmas -/

theorem cota5_elim {c : Char} (h : ('0' ≤ c && c ≤ '5') = true) :
    dVal c ≤ 5 ∧ c = dChar (dVal c) := by
  simp only [Bool.and_eq_true, decide_eq_true_eq] at h
  obtain ⟨h1, h2⟩ := h
  rw [Char.le_def, UInt32.le_def, BitVec.le_def] at h1 h2
  have hn1 : 48 ≤ c.toNat := h1
  have hn2 : c.toNat ≤ 53 := h2
  constructor
  · simp only [dVal]; omega
  · have h48 : 48 + (c.toNat - 48) = c.toNat := by omega
    rw [dVal, dChar, h48, Char.ofNat_toNat]

theorem cota3_elim {c : Char} (h : ('0' ≤ c && c ≤ '3') = true) :
    dVal c ≤ 3 ∧ c = dChar (dVal c) := by
  simp only [Bool.and_eq_true, decide_eq_true_eq] at h
  obtain ⟨h1, h2⟩ := h
  rw [Char.le_def, UInt32.le_def, BitVec.le_def] at h1 h2
  have hn1 : 48 ≤ c.toNat := h1
  have hn2 : c.toNat ≤ 51 := h2
  constructor
  · simp only [dVal]; omega
  · have h48 : 48 + (c.toNat - 48) = c.toNat := by omega
    rw [dVal, dChar, h48, Char.ofNat_toNat]

theorem dChar_cota5 {n : Nat} (h : n ≤ 5) : ('0' ≤ dChar n && dChar n ≤ '5') = true := by
  interval_cases n <;> decide

theorem dChar_cota3 {n : Nat} (h : n ≤ 3) : ('0' ≤ dChar n && dChar n ≤ '3') = true := by
  interval_cases n <;> decide

theorem dChar_cero_o_uno {n : Nat} (h : n ≤ 1) :
    (dChar n == '0' || dChar n == '1') = true := by
  interval_cases n <;> decide

/-! ## Concrete fixtures for witnesses and counterexamples -/

def ahoraEj : Instante := ⟨2026, 10, 11, 9, 0⟩

def argsAna : ReservaArgs := ⟨"2099-06-01", "14:00", "Ana Gomez", "ana@example.com"⟩

def argsJuan : ReservaArgs := ⟨"2099-06-01", "14:00", "Juan Perez", "juan@example.com"⟩

def llamadaAna : Llamada := ⟨argsAna, "id-ana", "2026-10-11T09:00:00Z", true⟩

def llamadaJuan : Llamada := ⟨argsJuan, "id-juan", "2026-10-11T09:00:01Z", true⟩

def turnoAna : Turno :=
  ⟨"id-ana", "2099-06-01", "14:00", "Ana Gomez", "ana@example.com", .confirmado,
    "2026-10-11T09:00:00Z"⟩

def turnoBeti : Turno :=
  ⟨"id-beti", "2099-06-02", "10:00", "Beti Lopez", "beti@example.com", .cancelado,
    "2026-10-11T08:00:00Z"⟩

def argsPasada : ReservaArgs := ⟨"2020-01-01", "10:00", "X", "x@x.com"⟩

/-! ## Claims -/

/-- C3, counterexample.  The claim asserts `validarFormatoHora "9:30" = false`
(no zero-padding tolerance); the regex `^([01]?[0-9]|2[0-3]):[0-5][0-9]$`
makes the leading hour digit optional, so the validator accepts `"9:30"`. -/
theorem validarFormatoHora_acepta_sin_pad : validarFormatoHora "9:30" = true := by decide

/-- C3, amended.  `validarFormatoHora s` is true exactly when `s` is `HH:MM`
with minutes 00-59 and hours 0-23 where the hour is either zero-padded to two
digits or a single digit 0-9; in particular false for `"24:00"`, true for
`"23:59"`, and true for `"9:30"`. -/
theorem validarFormatoHora_caracterizacion :
    (∀ s : String, validarFormatoHora s = true ↔
      ∃ h m, h ≤ 23 ∧ m ≤ 59 ∧
        (s = horaConPad h m ∨ (h ≤ 9 ∧ s = horaSinPad h m))) ∧
    validarFormatoHora "24:00" = false ∧ validarFormatoHora "23:59" = true ∧
    validarFormatoHora "9:30" = true := by
  refine ⟨?_, by decide, by decide, by decide⟩
  intro s
  constructor
  · intro hv
    unfold validarFormatoHora at hv
    split at hv
    case h_1 d m1 m2 heq =>
      rw [Bool.and_eq_true] at hv
      obtain ⟨hd, hm⟩ := hv
      rw [minutosOk, Bool.and_eq_true] at hm
      obtain ⟨hm1, hm2⟩ := hm
      obtain ⟨hd9, hdEq⟩ := esDigito_elim hd
      obtain ⟨hm15, hm1Eq⟩ := cota5_elim hm1
      obtain ⟨hm29, hm2Eq⟩ := esDigito_elim hm2
      refine ⟨dVal d, dVal m1 * 10 + dVal m2, by omega, by omega,
        Or.inr ⟨hd9, ?_⟩⟩
      have hdiv : (dVal m1 * 10 + dVal m2) / 10 = dVal m1 := by omega
      have hmod : (dVal m1 * 10 + dVal m2) % 10 = dVal m2 := by omega
      have : s = String.mk s.data := rfl
      rw [this, heq, horaSinPad, hdiv, hmod, ← hdEq, ← hm1Eq, ← hm2Eq]
    case h_2 h d m1 m2 heq =>
      rw [Bool.and_eq_true] at hv
      obtain ⟨hhd, hm⟩ := hv
      rw [minutosOk, Bool.and_eq_true] at hm
      obtain ⟨hm1, hm2⟩ := hm
      obtain ⟨hm15, hm1Eq⟩ := cota5_elim hm1
      obtain ⟨hm29, hm2Eq⟩ := esDigito_elim hm2
      have hsmk : s = String.mk s.data := rfl
      have hdiv : (dVal m1 * 10 + dVal m2) / 10 = dVal m1 := by omega
      have hmod : (dVal m1 * 10 + dVal m2) % 10 = dVal m2 := by omega
      rw [Bool.or_eq_true] at hhd
      rcases hhd with hA | hB
      · rw [Bool.and_eq_true] at hA
        obtain ⟨hh01, hd⟩ := hA
        simp only [Bool.or_eq_true, beq_iff_eq] at hh01
        obtain ⟨hd9, hdEq⟩ := esDigito_elim hd
        have hh1 : dVal h ≤ 1 := by
          rcases hh01 with hh | hh <;> subst hh <;> decide
        have hhEq : h = dChar (dVal h) := by
          rcases hh01 with hh | hh <;> subst hh <;> decide
        refine ⟨dVal h * 10 + dVal d, dVal m1 * 10 + dVal m2, by omega, by omega,
          Or.inl ?_⟩
        have hdivh : (dVal h * 10 + dVal d) / 10 = dVal h := by omega
        have hmodh : (dVal h * 10 + dVal d) % 10 = dVal d := by omega
        rw [hsmk, heq, horaConPad, hdiv, hmod, hdivh, hmodh,
          ← hhEq, ← hdEq, ← hm1Eq, ← hm2Eq]
      · rw [Bool.and_eq_true] at hB
        obtain ⟨hh2, hd3⟩ := hB
        simp only [beq_iff_eq] at hh2
        obtain ⟨hd3v, hdEq⟩ := cota3_elim hd3
        subst hh2
        refine ⟨20 + dVal d, dVal m1 * 10 + dVal m2, by omega, by omega, Or.inl ?_⟩
        have hdivh : (20 + dVal d) / 10 = 2 := by omega
        have hmodh : (20 + dVal d) % 10 = dVal d := by omega
        have h2c : dChar 2 = '2' := by decide
        rw [hsmk, heq, horaConPad, hdiv, hmod, hdivh, hmodh, h2c, ← hdEq, ← hm1Eq, ← hm2Eq]
    case h_3 =>
      exact absurd hv (by simp)
  · rintro ⟨h, m, hh23, hm59, heq | ⟨hh9, heq⟩⟩
    · subst heq
      have em1 : ('0' ≤ dChar (m / 10) && dChar (m / 10) ≤ '5') = true :=
        dChar_cota5 (by omega)
      have em2 : esDigito (dChar (m % 10)) = true := esDigito_dChar (by omega)
      show (match (horaConPad h m).data with
        | [d, ':', m1, m2] => esDigito d && minutosOk m1 m2
        | [h, d, ':', m1, m2] =>
            (((h == '0' || h == '1') && esDigito d) ||
              (h == '2' && ('0' ≤ d && d ≤ '3'))) && minutosOk m1 m2
        | _ => false) = true
      have hdata : (horaConPad h m).data =
          [dChar (h / 10), dChar (h % 10), ':', dChar (m / 10), dChar (m % 10)] := rfl
      rw [hdata]
      simp only [minutosOk, em1, em2, Bool.and_true]
      by_cases h19 : h ≤ 19
      · have e01 : (dChar (h / 10) == '0' || dChar (h / 10) == '1') = true :=
          dChar_cero_o_uno (by omega)
        have ed : esDigito (dChar (h % 10)) = true := esDigito_dChar (by omega)
        simp [e01, ed]
      · have hdiv2 : h / 10 = 2 := by omega
        have e2 : dChar (h / 10) == '2' := by rw [hdiv2]; decide
        have ed3 : ('0' ≤ dChar (h % 10) && dChar (h % 10) ≤ '3') = true :=
          dChar_cota3 (by omega)
        simp [e2, ed3]
    · subst heq
      have em1 : ('0' ≤ dChar (m / 10) && dChar (m / 10) ≤ '5') = true :=
        dChar_cota5 (by omega)
      have em2 : esDigito (dChar (m % 10)) = true := esDigito_dChar (by omega)
      have eh : esDigito (dChar h) = true := esDigito_dChar (by omega)
      show (match (horaSinPad h m).data with
        | [d, ':', m1, m2] => esDigito d && minutosOk m1 m2
        | [h, d, ':', m1, m2] =>
            (((h == '0' || h == '1') && esDigito d) ||
              (h == '2' && ('0' ≤ d && d ≤ '3'))) && minutosOk m1 m2
        | _ => false) = true
      have hdata : (horaSinPad h m).data =
          [dChar h, ':', dChar (m / 10), dChar (m % 10)] := rfl
      rw [hdata]
      simp [minutosOk, em1, em2, eh]

theorem diasEnMes_le_31 (y m : Nat) : diasEnMes y m ≤ 31 := by
  unfold diasEnMes
  split
  · split <;> omega
  · split <;> omega

theorem fechaReal_cotas {y m d : Nat} (h : fechaRealEnCalendario y m d = true) :
    1 ≤ m ∧ m ≤ 12 ∧ 1 ≤ d ∧ d ≤ 31 := by
  unfold fechaRealEnCalendario at h
  simp only [Bool.and_eq_true, decide_eq_true_eq] at h
  obtain ⟨⟨hm1, hm2⟩, hd1, hd2⟩ := h
  exact ⟨hm1, hm2, hd1, le_trans hd2 (diasEnMes_le_31 y m)⟩

/-- C4.  `validarFormatoFecha s` is true exactly when `s` is the `YYYY-MM-DD`
rendering of a real calendar date (month 01-12, day existing in that month,
Gregorian leap rule); in particular `"2024-02-30"` is rejected. -/
theorem validarFormatoFecha_caracterizacion :
    (∀ s : String, validarFormatoFecha s = true ↔
      ∃ y m d, y ≤ 9999 ∧ s = fechaStr y m d ∧ fechaRealEnCalendario y m d = true) ∧
    validarFormatoFecha "2024-02-30" = false := by
  refine ⟨?_, by decide⟩
  intro s
  constructor
  · intro hv
    unfold validarFormatoFecha parseFecha at hv
    split at hv
    case h_1 y1 y2 y3 y4 mo1 mo2 d1 d2 heq =>
      split at hv
      case isTrue hdig =>
        simp only [Bool.and_eq_true] at hdig
        obtain ⟨⟨⟨⟨⟨⟨⟨e1, e2⟩, e3⟩, e4⟩, e5⟩, e6⟩, e7⟩, e8⟩ := hdig
        obtain ⟨b1, q1⟩ := esDigito_elim e1
        obtain ⟨b2, q2⟩ := esDigito_elim e2
        obtain ⟨b3, q3⟩ := esDigito_elim e3
        obtain ⟨b4, q4⟩ := esDigito_elim e4
        obtain ⟨b5, q5⟩ := esDigito_elim e5
        obtain ⟨b6, q6⟩ := esDigito_elim e6
        obtain ⟨b7, q7⟩ := esDigito_elim e7
        obtain ⟨b8, q8⟩ := esDigito_elim e8
        simp only [] at hv
        split at hv
        case isTrue hreal =>
          refine ⟨((dVal y1 * 10 + dVal y2) * 10 + dVal y3) * 10 + dVal y4,
            dVal mo1 * 10 + dVal mo2, dVal d1 * 10 + dVal d2, by omega, ?_, hreal⟩
          have hsmk : s = String.mk s.data := rfl
          have w1 : (((dVal y1 * 10 + dVal y2) * 10 + dVal y3) * 10 + dVal y4) / 1000 =
            dVal y1 := by omega
          have w2 : (((dVal y1 * 10 + dVal y2) * 10 + dVal y3) * 10 + dVal y4) / 100 % 10 =
            dVal y2 := by omega
          have w3 : (((dVal y1 * 10 + dVal y2) * 10 + dVal y3) * 10 + dVal y4) / 10 % 10 =
            dVal y3 := by omega
          have w4 : (((dVal y1 * 10 + dVal y2) * 10 + dVal y3) * 10 + dVal y4) % 10 =
            dVal y4 := by omega
          have w5 : (dVal mo1 * 10 + dVal mo2) / 10 = dVal mo1 := by omega
          have w6 : (dVal mo1 * 10 + dVal mo2) % 10 = dVal mo2 := by omega
          have w7 : (dVal d1 * 10 + dVal d2) / 10 = dVal d1 := by omega
          have w8 : (dVal d1 * 10 + dVal d2) % 10 = dVal d2 := by omega
          rw [hsmk, heq, fechaStr, w1, w2, w3, w4, w5, w6, w7, w8,
            ← q1, ← q2, ← q3, ← q4, ← q5, ← q6, ← q7, ← q8]
        case isFalse => simp at hv
      case isFalse => simp at hv
    case h_2 => simp at hv
  · rintro ⟨y, m, d, hy, heq, hreal⟩
    subst heq
    obtain ⟨hm1, hm12, hd1, hd31⟩ := fechaReal_cotas hreal
    have e1 : esDigito (dChar (y / 1000)) = true := esDigito_dChar (by omega)
    have e2 : esDigito (dChar (y / 100 % 10)) = true := esDigito_dChar (by omega)
    have e3 : esDigito (dChar (y / 10 % 10)) = true := esDigito_dChar (by omega)
    have e4 : esDigito (dChar (y % 10)) = true := esDigito_dChar (by omega)
    have e5 : esDigito (dChar (m / 10)) = true := esDigito_dChar (by omega)
    have e6 : esDigito (dChar (m % 10)) = true := esDigito_dChar (by omega)
    have e7 : esDigito (dChar (d / 10)) = true := esDigito_dChar (by omega)
    have e8 : esDigito (dChar (d % 10)) = true := esDigito_dChar (by omega)
    have v1 : dVal (dChar (y / 1000)) = y / 1000 := dVal_dChar (by omega)
    have v2 : dVal (dChar (y / 100 % 10)) = y / 100 % 10 := dVal_dChar (by omega)
    have v3 : dVal (dChar (y / 10 % 10)) = y / 10 % 10 := dVal_dChar (by omega)
    have v4 : dVal (dChar (y % 10)) = y % 10 := dVal_dChar (by omega)
    have v5 : dVal (dChar (m / 10)) = m / 10 := dVal_dChar (by omega)
    have v6 : dVal (dChar (m % 10)) = m % 10 := dVal_dChar (by omega)
    have v7 : dVal (dChar (d / 10)) = d / 10 := dVal_dChar (by omega)
    have v8 : dVal (dChar (d % 10)) = d % 10 := dVal_dChar (by omega)
    have hyv : ((y / 1000 * 10 + y / 100 % 10) * 10 + y / 10 % 10) * 10 + y % 10 = y := by
      omega
    have hmv : m / 10 * 10 + m % 10 = m := by omega
    have hdv : d / 10 * 10 + d % 10 = d := by omega
    have hdata : (fechaStr y m d).data =
        [dChar (y / 1000), dChar (y / 100 % 10), dChar (y / 10 % 10), dChar (y % 10),
          '-', dChar (m / 10), dChar (m % 10), '-', dChar (d / 10), dChar (d % 10)] := rfl
    unfold validarFormatoFecha parseFecha
    rw [hdata]
    simp only [e1, e2, e3, e4, e5, e6, e7, e8, Bool.and_self, if_true,
      v1, v2, v3, v4, v5, v6, v7, v8, hyv, hmv, hdv, hreal, Option.isSome_some]

/-! ### Cancellation lemmas -/

theorem filter_id_unico {s : Store} {t : Turno}
    (hu : List.Pairwise (fun a b => a.id ≠ b.id) s) (hmem : t ∈ s) :
    s.filter (fun u => u.id == t.id) = [t] := by
  induction s with
  | nil => cases hmem
  | cons a rest ih =>
    rw [List.pairwise_cons] at hu
    obtain ⟨ha, hrest⟩ := hu
    rcases List.mem_cons.mp hmem with heq | hmem2
    · subst heq
      rw [List.filter_cons]
      have htt : (t.id == t.id) = true := by simp
      rw [htt]
      simp only [if_true]
      have : rest.filter (fun u => u.id == t.id) = [] := by
        rw [List.filter_eq_nil_iff]
        intro u hu2
        simp only [beq_eq_false_iff_ne, ne_eq, Bool.not_eq_true]
        intro hcontra
        exact ha u hu2 hcontra.symm
      rw [this]
    · have hne : (a.id == t.id) = false := by
        simp only [beq_eq_false_iff_ne, ne_eq]
        exact ha t hmem2
      rw [List.filter_cons, hne]
      simp only [Bool.false_eq_true, if_false]
      exact ih hrest hmem2

theorem map_id_de {α : Type} (f : α → α) (l : List α) (h : ∀ x ∈ l, f x = x) :
    l.map f = l := by
  induction l with
  | nil => rfl
  | cons a as ih =>
    rw [List.map_cons, h a (List.mem_cons_self a as),
      ih (fun x hx => h x (List.mem_cons.mpr (Or.inr hx)))]

theorem map_cancelar_ya_cancelado {s : Store} {t : Turno}
    (hu : List.Pairwise (fun a b => a.id ≠ b.id) s) (hmem : t ∈ s)
    (hc : t.estado = .cancelado) :
    s.map (fun u => if u.id == t.id then { u with estado := .cancelado } else u) = s := by
  induction s with
  | nil => rfl
  | cons a rest ih =>
    rw [List.pairwise_cons] at hu
    obtain ⟨ha, hrest⟩ := hu
    rcases List.mem_cons.mp hmem with heq | hmem2
    · subst heq
      rw [List.map_cons]
      have htt : (t.id == t.id) = true := by simp
      rw [htt]
      simp only [if_true]
      have hteta : ({ t with estado := Estado.cancelado } : Turno) = t := by
        obtain ⟨i, f, h, n, e, es, c⟩ := t
        simp only at hc
        rw [hc]
      rw [hteta]
      have : rest.map (fun u => if u.id == t.id then { u with estado := .cancelado } else u) =
          rest := by
        refine map_id_de _ _ (fun u hu2 => ?_)
        have hne2 : (u.id == t.id) = false := by
          simp only [beq_eq_false_iff_ne, ne_eq]
          intro hcontra
          exact ha u hu2 hcontra.symm
        rw [hne2]
        simp
      rw [this]
    · have hne : (a.id == t.id) = false := by
        simp only [beq_eq_false_iff_ne, ne_eq]
        exact ha t hmem2
      rw [List.map_cons, hne]
      simp only [Bool.false_eq_true, if_false]
      rw [ih hrest hmem2]

/-- C5.  Cancelling a reservation that is already Cancelled still succeeds,
leaves the store unchanged (same terminal state), and cancelling twice ends
in the same state as cancelling once. -/
theorem cancelar_ya_cancelado_exito (s : Store) (t : Turno)
    (hu : List.Pairwise (fun a b => a.id ≠ b.id) s) (hmem : t ∈ s)
    (hc : t.estado = .cancelado) :
    (toolCancelarTurno s t.id).1.exito = true ∧
    (toolCancelarTurno s t.id).2 = s ∧
    toolCancelarTurno (toolCancelarTurno s t.id).2 t.id = toolCancelarTurno s t.id := by
  have hf := filter_id_unico hu hmem
  have hm := map_cancelar_ya_cancelado hu hmem hc
  have hrun : toolCancelarTurno s t.id = (⟨true, .cancelado t.fecha t.hora⟩, s) := by
    unfold toolCancelarTurno cancelarTurno dbUpdateCancelarSingle
    rw [hf, hm]
  refine ⟨by rw [hrun], by rw [hrun], ?_⟩
  rw [hrun]
  exact hrun

/-- C5 witness: a store holding one already-cancelled turno. -/
theorem cancelar_ya_cancelado_exito_witness :
    List.Pairwise (fun a b : Turno => a.id ≠ b.id) [turnoBeti] ∧ turnoBeti ∈ [turnoBeti] ∧
    turnoBeti.estado = .cancelado ∧
    (toolCancelarTurno [turnoBeti] turnoBeti.id).1.exito = true := by
  refine ⟨by decide, by decide, by decide, ?_⟩
  exact (cancelar_ya_cancelado_exito [turnoBeti] turnoBeti (by decide) (by decide)
    (by decide)).1

/-- C6, the code bug.  Cancelling an id with no stored reservation produces a
structured failure (no exception escapes the tool), but the failure is the
generic wrap of the supabase PGRST116 error and never the template that names
the missing id: the `No se encontró el turno con id` branch of `cancelarTurno`
is unreachable, because a zero-row `.single()` update always reports its
not-found condition through the error field, which is rethrown first. -/
theorem cancelar_id_desconocido_sin_nombre :
    toolCancelarTurno [turnoAna] "turno-999" =
      (⟨false, .noSePudo (.errorAlCancelar .pgrst116)⟩, [turnoAna]) ∧
    (∀ (s : Store) (id : String),
      (cancelarTurno s id).1 ≠ .error (.noSeEncontroTurno id)) := by
  refine ⟨by decide, ?_⟩
  intro s id
  unfold cancelarTurno dbUpdateCancelarSingle
  split <;> simp

/-- C10.  Looking up an id with no stored reservation returns null (`.ok none`)
rather than raising: the PGRST116 not-found error of `.single()` is absorbed. -/
theorem obtener_id_inexistente (s : Store) (id : String)
    (h : ∀ t ∈ s, t.id ≠ id) : obtenerTurnoPorId s id = .ok none := by
  have hf : s.filter (fun t => t.id == id) = [] := by
    rw [List.filter_eq_nil_iff]
    intro u hu2
    simp only [beq_eq_false_iff_ne, ne_eq, Bool.not_eq_true]
    intro hcontra
    exact h u hu2 hcontra
  unfold obtenerTurnoPorId dbSelectPorIdSingle
  rw [hf]
  rfl

/-- C10 witness: the lookup of an absent id on a one-row store. -/
theorem obtener_id_inexistente_witness :
    (∀ t ∈ ([turnoAna] : Store), t.id ≠ "turno-999") ∧
    obtenerTurnoPorId [turnoAna] "turno-999" = .ok none := by
  refine ⟨by decide, ?_⟩
  exact obtener_id_inexistente [turnoAna] "turno-999" (by decide)

/-- C7.  Called with no arguments, the listing tool defaults `fechaDesde` to
today and `fechaHasta` to `fechaDesde`: its rows are exactly the listed
confirmed turnos dated today, in ascending (fecha, hora) order, and when
nothing matches the result is the structured empty output (cantidad 0,
"no turnos" message), not an error. -/
theorem listar_sin_argumentos (hoy : String) (s : Store) :
    (toolListarTurnos hoy s none none).turnos =
      (listarTurnos s (some hoy) (some hoy) true).map resumen ∧
    (∀ t ∈ listarTurnos s (some hoy) (some hoy) true,
      t.fecha = hoy ∧ t.estado = .confirmado) ∧
    List.Sorted turnoLe (listarTurnos s (some hoy) (some hoy) true) ∧
    (listarTurnos s (some hoy) (some hoy) true = [] →
      toolListarTurnos hoy s none none = ⟨0, .sinTurnos hoy hoy, []⟩) := by
  have hrun : toolListarTurnos hoy s none none =
      (if (listarTurnos s (some hoy) (some hoy) true).length == 0 then
        (⟨0, .sinTurnos hoy hoy, []⟩ : ListarOutput)
      else
        ⟨(listarTurnos s (some hoy) (some hoy) true).length,
          .turnosEncontrados (listarTurnos s (some hoy) (some hoy) true).length hoy hoy,
          (listarTurnos s (some hoy) (some hoy) true).map resumen⟩) := rfl
  refine ⟨?_, ?_, ?_, ?_⟩
  · rw [hrun]
    by_cases hl : (listarTurnos s (some hoy) (some hoy) true).length == 0
    · have hleq : listarTurnos s (some hoy) (some hoy) true = [] := by
        simpa using hl
      rw [hl, hleq]
      simp
    · rw [Bool.eq_false_iff.mpr hl]
      simp
  · intro t ht
    rw [listarTurnos, List.mem_insertionSort, List.mem_filter] at ht
    obtain ⟨hmem, hcond⟩ := ht
    rw [filtroListar] at hcond
    simp only [Bool.and_eq_true, Bool.not_true, Bool.false_or, beq_iff_eq] at hcond
    obtain ⟨⟨hge, hle⟩, hest⟩ := hcond
    exact ⟨strLe_antisymm hle hge, hest⟩
  · rw [listarTurnos]
    exact List.sorted_insertionSort turnoLe _
  · intro hemp
    rw [hrun, hemp]
    simp

/-- C7 witness: a one-row store listed with no arguments. -/
theorem listar_sin_argumentos_witness :
    (toolListarTurnos "2099-06-01" [turnoAna] none none).turnos =
      (listarTurnos [turnoAna] (some "2099-06-01") (some "2099-06-01") true).map resumen :=
  (listar_sin_argumentos "2099-06-01" [turnoAna]).1

/-! ### Reserve-flow lemmas -/

theorem verificar_iff (s : Store) (f h : String) :
    verificarDisponibilidad s f h = true ↔ activosEn s f h = [] := by
  unfold verificarDisponibilidad
  exact List.isEmpty_iff

theorem reservarCheck_pasa {ahora : Instante} {a : ReservaArgs}
    (hv1 : validarFormatoFecha a.fecha = true) (hv2 : validarFormatoHora a.hora = true)
    (hv3 : validarFechaFutura a.fecha (diaDe ahora) = true)
    (hv4 : validarFechaHoraFutura a.fecha a.hora ahora = true) (s : Store) :
    reservarCheck ahora s a = .continuar (verificarDisponibilidad s a.fecha a.hora) := by
  unfold reservarCheck
  rw [hv1, hv2, hv3, hv4]
  simp

theorem crearTurno_libre (s : Store) (f h n e genId creadoEn : String)
    (hdisp : activosEn s f h = []) :
    crearTurno s ⟨f, h, n, e, some .confirmado⟩ genId creadoEn =
      .ok (⟨genId, f, h, n, e, .confirmado, creadoEn⟩,
        s ++ [⟨genId, f, h, n, e, .confirmado, creadoEn⟩]) := by
  simp [crearTurno, dbInsert, hdisp]

theorem crearTurno_ocupado (s : Store) (f h n e genId creadoEn : String)
    (hocup : activosEn s f h ≠ []) :
    crearTurno s ⟨f, h, n, e, some .confirmado⟩ genId creadoEn =
      .error (.errorAlCrear .uniqueViolation) := by
  have hne : (activosEn s f h).isEmpty = false := by
    rw [List.isEmpty_eq_false]
    exact hocup
  simp [crearTurno, dbInsert, hne]

theorem activosEn_append (s1 s2 : Store) (f h : String) :
    activosEn (s1 ++ s2) f h = activosEn s1 f h ++ activosEn s2 f h :=
  List.filter_append _ _

/-- C8.  A reserve call rejected by any of the four fail-fast validations
leaves the store unchanged, fails with one of the four structured validation
messages, and performs no store access: its output is the same against every
store. -/
theorem reservar_validacion_sin_efectos (ahora : Instante) (genId creadoEn : String)
    (emailOk : Bool) (s : Store) (a : ReservaArgs)
    (hval : validarFormatoFecha a.fecha = false ∨ validarFormatoHora a.hora = false ∨
      validarFechaFutura a.fecha (diaDe ahora) = false ∨
      validarFechaHoraFutura a.fecha a.hora ahora = false) :
    (toolReservarTurno ahora genId creadoEn emailOk s a).2 = s ∧
    (toolReservarTurno ahora genId creadoEn emailOk s a).1.exito = false ∧
    esMensajeValidacion (toolReservarTurno ahora genId creadoEn emailOk s a).1.mensaje = true ∧
    ∀ s2 : Store, (toolReservarTurno ahora genId creadoEn emailOk s a).1 =
      (toolReservarTurno ahora genId creadoEn emailOk s2 a).1 := by
  have hch : ∃ m, (∀ s2 : Store, reservarCheck ahora s2 a = .rechazo m) ∧
      esMensajeValidacion m = true := by
    cases hv1 : validarFormatoFecha a.fecha with
    | false =>
      exact ⟨.fechaFormatoInvalido a.fecha, fun s2 => by simp [reservarCheck, hv1], rfl⟩
    | true =>
      cases hv2 : validarFormatoHora a.hora with
      | false =>
        exact ⟨.horaFormatoInvalida a.hora, fun s2 => by simp [reservarCheck, hv1, hv2], rfl⟩
      | true =>
        cases hv3 : validarFechaFutura a.fecha (diaDe ahora) with
        | false =>
          exact ⟨.fechaPasada a.fecha, fun s2 => by simp [reservarCheck, hv1, hv2, hv3], rfl⟩
        | true =>
          cases hv4 : validarFechaHoraFutura a.fecha a.hora ahora with
          | false =>
            exact ⟨.fechaHoraPasada a.fecha a.hora,
              fun s2 => by simp [reservarCheck, hv1, hv2, hv3, hv4], rfl⟩
          | true =>
            rw [hv1, hv2, hv3, hv4] at hval
            rcases hval with h | h | h | h <;> exact absurd h (by simp)
  obtain ⟨m, hall, hvm⟩ := hch
  have hrun : toolReservarTurno ahora genId creadoEn emailOk s a = (⟨false, m, none⟩, s) := by
    unfold toolReservarTurno
    rw [hall s]
  refine ⟨by rw [hrun], by rw [hrun], by rw [hrun]; exact hvm, ?_⟩
  intro s2
  have hrun2 : toolReservarTurno ahora genId creadoEn emailOk s2 a = (⟨false, m, none⟩, s2) := by
    unfold toolReservarTurno
    rw [hall s2]
  rw [hrun, hrun2]

/-- C8 witness: the spec's concrete scenario, a reservation for the past date
2020-01-01 attempted on 2026-10-11 against a one-row store. -/
theorem reservar_validacion_sin_efectos_witness :
    validarFechaFutura argsPasada.fecha (diaDe ahoraEj) = false ∧
    (toolReservarTurno ahoraEj "g1" "t1" true [turnoAna] argsPasada).2 = [turnoAna] ∧
    esMensajeValidacion
      (toolReservarTurno ahoraEj "g1" "t1" true [turnoAna] argsPasada).1.mensaje = true := by
  have hv : validarFechaFutura argsPasada.fecha (diaDe ahoraEj) = false := by decide
  have hr := reservar_validacion_sin_efectos ahoraEj "g1" "t1" true [turnoAna] argsPasada
    (Or.inr (Or.inr (Or.inl hv)))
  exact ⟨hv, hr.1, hr.2.2.1⟩

/-- C9.  When the insert succeeds but the confirmation email fails
(`enviarEmailConfirmacion` returns false), the reserve call still returns a
success whose message carries the email annotation flag, and the store effect
is the same as when the email succeeds: the notifier outcome never becomes an
overall failure. -/
theorem reservar_email_fallido_exito (ahora : Instante) (genId creadoEn : String)
    (s : Store) (a : ReservaArgs)
    (hv1 : validarFormatoFecha a.fecha = true) (hv2 : validarFormatoHora a.hora = true)
    (hv3 : validarFechaFutura a.fecha (diaDe ahora) = true)
    (hv4 : validarFechaHoraFutura a.fecha a.hora ahora = true)
    (hdisp : activosEn s a.fecha a.hora = []) :
    (toolReservarTurno ahora genId creadoEn false s a).1.exito = true ∧
    (toolReservarTurno ahora genId creadoEn false s a).1.mensaje =
      .reservaExitosa a.fecha a.hora genId false ∧
    (toolReservarTurno ahora genId creadoEn false s a).2 =
      (toolReservarTurno ahora genId creadoEn true s a).2 ∧
    (toolReservarTurno ahora genId creadoEn true s a).1.exito = true := by
  have hver : verificarDisponibilidad s a.fecha a.hora = true := (verificar_iff s _ _).mpr hdisp
  have hrun : ∀ emailOk : Bool, toolReservarTurno ahora genId creadoEn emailOk s a =
      (⟨true, .reservaExitosa a.fecha a.hora genId emailOk, some (genId, a.fecha, a.hora)⟩,
        s ++ [⟨genId, a.fecha, a.hora, a.nombre_cliente, a.email, .confirmado, creadoEn⟩]) := by
    intro emailOk
    unfold toolReservarTurno
    rw [reservarCheck_pasa hv1 hv2 hv3 hv4, hver]
    show reservarCommit genId creadoEn emailOk s a true = _
    unfold reservarCommit
    rw [crearTurno_libre s a.fecha a.hora a.nombre_cliente a.email genId creadoEn hdisp]
    rfl
  rw [hrun false, hrun true]
  exact ⟨rfl, rfl, rfl, rfl⟩

/-- C9 witness: Ana's reservation against the empty store, notifier failing. -/
theorem reservar_email_fallido_exito_witness :
    validarFormatoFecha argsAna.fecha = true ∧ validarFormatoHora argsAna.hora = true ∧
    validarFechaFutura argsAna.fecha (diaDe ahoraEj) = true ∧
    validarFechaHoraFutura argsAna.fecha argsAna.hora ahoraEj = true ∧
    activosEn [] argsAna.fecha argsAna.hora = [] ∧
    (toolReservarTurno ahoraEj "g1" "t1" false [] argsAna).1.exito = true := by
  have hr := reservar_email_fallido_exito ahoraEj "g1" "t1" [] argsAna
    (by decide) (by decide) (by decide) (by decide) (by decide)
  exact ⟨by decide, by decide, by decide, by decide, by decide, hr.1⟩

/-! ### Commit-step lemmas -/

theorem commit_libre (c : Llamada) (s : Store)
    (hdisp : activosEn s c.args.fecha c.args.hora = []) :
    reservarCommit c.genId c.creadoEn c.emailOk s c.args true =
      (⟨true, .reservaExitosa c.args.fecha c.args.hora c.genId c.emailOk,
        some (c.genId, c.args.fecha, c.args.hora)⟩, s ++ [filaDe c]) := by
  unfold reservarCommit
  rw [crearTurno_libre s c.args.fecha c.args.hora c.args.nombre_cliente c.args.email
    c.genId c.creadoEn hdisp]
  rfl

theorem commit_ocupado (c : Llamada) (s : Store)
    (hocup : activosEn s c.args.fecha c.args.hora ≠ []) :
    reservarCommit c.genId c.creadoEn c.emailOk s c.args true =
      (⟨false, .errorAlReservar (.errorAlCrear .uniqueViolation), none⟩, s) := by
  unfold reservarCommit
  rw [crearTurno_ocupado s c.args.fecha c.args.hora c.args.nombre_cliente c.args.email
    c.genId c.creadoEn hocup]
  rfl

theorem commit_no_disponible (c : Llamada) (s : Store) :
    reservarCommit c.genId c.creadoEn c.emailOk s c.args false =
      (⟨false, .sinDisponibilidad c.args.fecha c.args.hora, none⟩, s) := rfl

theorem activosEn_insert_igual (s : Store) (c : Llamada) (f h : String)
    (hcf : c.args.fecha = f) (hch : c.args.hora = h) :
    activosEn (s ++ [filaDe c]) f h = activosEn s f h ++ [filaDe c] := by
  rw [activosEn_append]
  congr 1
  simp [activosEn, coincideActivo, filaDe, hcf, hch]

/-- C2, counterexample.  An interleaved execution in which the pre-check of
both calls passed and call 1's insert then hits the unique constraint: the
store reports the duplicate, and the reserve call returns the generic
`Hubo un error al reservar el turno` wrap of the store error — not the
slot-taken message — while the other call succeeds. -/
theorem reservar_duplicado_error_generico :
    (runDos ahoraEj [] llamadaAna llamadaJuan .a2a1b2b1).1.mensaje =
      .errorAlReservar (.errorAlCrear .uniqueViolation) ∧
    esSinDisponibilidad (runDos ahoraEj [] llamadaAna llamadaJuan .a2a1b2b1).1.mensaje =
      false ∧
    (runDos ahoraEj [] llamadaAna llamadaJuan .a2a1b2b1).2.1.exito = true := by
  decide

/-- C2, amended.  The caller-side availability pre-check, not the store's
atomic insert, is the mechanism that produces the slot-taken failure: when
the pre-check reports the slot occupied, reserve returns the
`sinDisponibilidad` failure without any store write; and whenever the insert
itself is reached and the store reports the unique-constraint violation,
reserve returns the generic error wrap of the store message instead of a
slot-taken failure. -/
theorem reservar_precheck_mecanismo (ahora : Instante) (genId creadoEn : String)
    (emailOk : Bool) (s : Store) (a : ReservaArgs)
    (hv1 : validarFormatoFecha a.fecha = true) (hv2 : validarFormatoHora a.hora = true)
    (hv3 : validarFechaFutura a.fecha (diaDe ahora) = true)
    (hv4 : validarFechaHoraFutura a.fecha a.hora ahora = true) :
    (activosEn s a.fecha a.hora ≠ [] →
      toolReservarTurno ahora genId creadoEn emailOk s a =
        (⟨false, .sinDisponibilidad a.fecha a.hora, none⟩, s)) ∧
    (∀ s2 : Store, activosEn s2 a.fecha a.hora ≠ [] →
      reservarCommit genId creadoEn emailOk s2 a true =
        (⟨false, .errorAlReservar (.errorAlCrear .uniqueViolation), none⟩, s2)) := by
  constructor
  · intro hocup
    have hver : verificarDisponibilidad s a.fecha a.hora = false := by
      unfold verificarDisponibilidad
      rw [List.isEmpty_eq_false]
      exact hocup
    unfold toolReservarTurno
    rw [reservarCheck_pasa hv1 hv2 hv3 hv4, hver]
    rfl
  · intro s2 hocup
    unfold reservarCommit
    rw [crearTurno_ocupado s2 a.fecha a.hora a.nombre_cliente a.email genId creadoEn hocup]
    rfl

/-- C2 amended witness: Juan against a store already holding Ana's slot. -/
theorem reservar_precheck_mecanismo_witness :
    activosEn [turnoAna] argsJuan.fecha argsJuan.hora ≠ [] ∧
    toolReservarTurno ahoraEj "g2" "t2" true [turnoAna] argsJuan =
      (⟨false, .sinDisponibilidad argsJuan.fecha argsJuan.hora, none⟩, [turnoAna]) ∧
    reservarCommit "g2" "t2" true [turnoAna] argsJuan true =
      (⟨false, .errorAlReservar (.errorAlCrear .uniqueViolation), none⟩, [turnoAna]) := by
  have hocup : activosEn [turnoAna] argsJuan.fecha argsJuan.hora ≠ [] := by decide
  have hr := reservar_precheck_mecanismo ahoraEj "g2" "t2" true [turnoAna] argsJuan
    (by decide) (by decide) (by decide) (by decide)
  exact ⟨hocup, hr.1 hocup, hr.2 [turnoAna] hocup⟩

/-- C1, counterexample.  Two concurrent reserve calls for the same slot on an
empty store, interleaved check-check-commit-commit: exactly one succeeds and
the final store holds exactly one Active row, but the loser's failure is the
generic insert-error wrap, not the 'not available' message the claim
requires. -/
theorem carrera_perdedor_mensaje_generico :
    (runDos ahoraEj [] llamadaAna llamadaJuan .a1a2b1b2).1.exito = true ∧
    (runDos ahoraEj [] llamadaAna llamadaJuan .a1a2b1b2).2.1.exito = false ∧
    esSinDisponibilidad
      (runDos ahoraEj [] llamadaAna llamadaJuan .a1a2b1b2).2.1.mensaje = false ∧
    (activosEn (runDos ahoraEj [] llamadaAna llamadaJuan .a1a2b1b2).2.2
      "2099-06-01" "14:00").length = 1 := by
  decide

/-- C1, amended.  For two concurrent reserve calls on the same slot, both
passing validation, against a store with no Active row at that slot: under
every interleaving of their store events exactly one call succeeds, the final
store holds exactly one Active row at the slot, and the losing call fails
with either the 'not available' message (when its pre-check saw the winner's
row) or the generic unique-violation insert error (when the race was decided
at the store). -/
theorem carrera_reservas (ahora : Instante) (s0 : Store) (c1 c2 : Llamada)
    (hf : c2.args.fecha = c1.args.fecha) (hh : c2.args.hora = c1.args.hora)
    (hv1 : validarFormatoFecha c1.args.fecha = true)
    (hv2 : validarFormatoHora c1.args.hora = true)
    (hv3 : validarFechaFutura c1.args.fecha (diaDe ahora) = true)
    (hv4 : validarFechaHoraFutura c1.args.fecha c1.args.hora ahora = true)
    (hdisp : activosEn s0 c1.args.fecha c1.args.hora = [])
    (p : PlanCarrera) :
    ((runDos ahora s0 c1 c2 p).1.exito = true ∧
        (runDos ahora s0 c1 c2 p).2.1.exito = false ∨
      (runDos ahora s0 c1 c2 p).1.exito = false ∧
        (runDos ahora s0 c1 c2 p).2.1.exito = true) ∧
    (activosEn (runDos ahora s0 c1 c2 p).2.2 c1.args.fecha c1.args.hora).length = 1 ∧
    ((runDos ahora s0 c1 c2 p).1.exito = false →
      (runDos ahora s0 c1 c2 p).1.mensaje =
          .sinDisponibilidad c1.args.fecha c1.args.hora ∨
        (runDos ahora s0 c1 c2 p).1.mensaje =
          .errorAlReservar (.errorAlCrear .uniqueViolation)) ∧
    ((runDos ahora s0 c1 c2 p).2.1.exito = false →
      (runDos ahora s0 c1 c2 p).2.1.mensaje =
          .sinDisponibilidad c2.args.fecha c2.args.hora ∨
        (runDos ahora s0 c1 c2 p).2.1.mensaje =
          .errorAlReservar (.errorAlCrear .uniqueViolation)) := by
  have hv1' : validarFormatoFecha c2.args.fecha = true := by rw [hf]; exact hv1
  have hv2' : validarFormatoHora c2.args.hora = true := by rw [hh]; exact hv2
  have hv3' : validarFechaFutura c2.args.fecha (diaDe ahora) = true := by rw [hf]; exact hv3
  have hv4' : validarFechaHoraFutura c2.args.fecha c2.args.hora ahora = true := by
    rw [hf, hh]; exact hv4
  have hdisp' : activosEn s0 c2.args.fecha c2.args.hora = [] := by rw [hf, hh]; exact hdisp
  have hver0 : verificarDisponibilidad s0 c1.args.fecha c1.args.hora = true :=
    (verificar_iff s0 _ _).mpr hdisp
  have hver0' : verificarDisponibilidad s0 c2.args.fecha c2.args.hora = true :=
    (verificar_iff s0 _ _).mpr hdisp'
  have hact1 : activosEn (s0 ++ [filaDe c1]) c1.args.fecha c1.args.hora = [filaDe c1] := by
    rw [activosEn_insert_igual s0 c1 _ _ rfl rfl, hdisp]
    rfl
  have hact1' : activosEn (s0 ++ [filaDe c1]) c2.args.fecha c2.args.hora = [filaDe c1] := by
    rw [hf, hh]
    exact hact1
  have hocup1' : activosEn (s0 ++ [filaDe c1]) c2.args.fecha c2.args.hora ≠ [] := by
    rw [hact1']
    simp
  have hver1' : verificarDisponibilidad (s0 ++ [filaDe c1]) c2.args.fecha c2.args.hora =
      false := by
    unfold verificarDisponibilidad
    rw [hact1']
    rfl
  have hact2 : activosEn (s0 ++ [filaDe c2]) c1.args.fecha c1.args.hora = [filaDe c2] := by
    rw [activosEn_insert_igual s0 c2 _ _ hf hh, hdisp]
    rfl
  have hocup2 : activosEn (s0 ++ [filaDe c2]) c1.args.fecha c1.args.hora ≠ [] := by
    rw [hact2]
    simp
  have hver2 : verificarDisponibilidad (s0 ++ [filaDe c2]) c1.args.fecha c1.args.hora =
      false := by
    unfold verificarDisponibilidad
    rw [hact2]
    rfl
  cases p
  case a1b1a2b2 =>
    have hrun : runDos ahora s0 c1 c2 .a1b1a2b2 =
        (⟨true, .reservaExitosa c1.args.fecha c1.args.hora c1.genId c1.emailOk,
          some (c1.genId, c1.args.fecha, c1.args.hora)⟩,
         ⟨false, .sinDisponibilidad c2.args.fecha c2.args.hora, none⟩,
         s0 ++ [filaDe c1]) := by
      simp only [runDos, pasoFinal, reservarCheck_pasa hv1 hv2 hv3 hv4,
        reservarCheck_pasa hv1' hv2' hv3' hv4', hver0, hver1',
        commit_libre c1 s0 hdisp, commit_no_disponible]
    rw [hrun]
    refine ⟨Or.inl ⟨rfl, rfl⟩, ?_, ?_, ?_⟩
    · rw [hact1]
      rfl
    · intro hcontra
      exact absurd hcontra (by simp)
    · intro _
      exact Or.inl rfl
  case a1a2b1b2 =>
    have hrun : runDos ahora s0 c1 c2 .a1a2b1b2 =
        (⟨true, .reservaExitosa c1.args.fecha c1.args.hora c1.genId c1.emailOk,
          some (c1.genId, c1.args.fecha, c1.args.hora)⟩,
         ⟨false, .errorAlReservar (.errorAlCrear .uniqueViolation), none⟩,
         s0 ++ [filaDe c1]) := by
      simp only [runDos, pasoFinal, reservarCheck_pasa hv1 hv2 hv3 hv4,
        reservarCheck_pasa hv1' hv2' hv3' hv4', hver0, hver0',
        commit_libre c1 s0 hdisp, commit_ocupado c2 (s0 ++ [filaDe c1]) hocup1']
    rw [hrun]
    refine ⟨Or.inl ⟨rfl, rfl⟩, ?_, ?_, ?_⟩
    · rw [hact1]
      rfl
    · intro hcontra
      exact absurd hcontra (by simp)
    · intro _
      exact Or.inr rfl
  case a1a2b2b1 =>
    have hrun : runDos ahora s0 c1 c2 .a1a2b2b1 =
        (⟨false, .errorAlReservar (.errorAlCrear .uniqueViolation), none⟩,
         ⟨true, .reservaExitosa c2.args.fecha c2.args.hora c2.genId c2.emailOk,
          some (c2.genId, c2.args.fecha, c2.args.hora)⟩,
         s0 ++ [filaDe c2]) := by
      simp only [runDos, pasoFinal, reservarCheck_pasa hv1 hv2 hv3 hv4,
        reservarCheck_pasa hv1' hv2' hv3' hv4', hver0, hver0',
        commit_libre c2 s0 hdisp', commit_ocupado c1 (s0 ++ [filaDe c2]) hocup2]
    rw [hrun]
    refine ⟨Or.inr ⟨rfl, rfl⟩, ?_, ?_, ?_⟩
    · rw [hact2]
      rfl
    · intro _
      exact Or.inr rfl
    · intro hcontra
      exact absurd hcontra (by simp)
  case a2a1b1b2 =>
    have hrun : runDos ahora s0 c1 c2 .a2a1b1b2 =
        (⟨true, .reservaExitosa c1.args.fecha c1.args.hora c1.genId c1.emailOk,
          some (c1.genId, c1.args.fecha, c1.args.hora)⟩,
         ⟨false, .errorAlReservar (.errorAlCrear .uniqueViolation), none⟩,
         s0 ++ [filaDe c1]) := by
      simp only [runDos, pasoFinal, reservarCheck_pasa hv1 hv2 hv3 hv4,
        reservarCheck_pasa hv1' hv2' hv3' hv4', hver0, hver0',
        commit_libre c1 s0 hdisp, commit_ocupado c2 (s0 ++ [filaDe c1]) hocup1']
    rw [hrun]
    refine ⟨Or.inl ⟨rfl, rfl⟩, ?_, ?_, ?_⟩
    · rw [hact1]
      rfl
    · intro hcontra
      exact absurd hcontra (by simp)
    · intro _
      exact Or.inr rfl
  case a2a1b2b1 =>
    have hrun : runDos ahora s0 c1 c2 .a2a1b2b1 =
        (⟨false, .errorAlReservar (.errorAlCrear .uniqueViolation), none⟩,
         ⟨true, .reservaExitosa c2.args.fecha c2.args.hora c2.genId c2.emailOk,
          some (c2.genId, c2.args.fecha, c2.args.hora)⟩,
         s0 ++ [filaDe c2]) := by
      simp only [runDos, pasoFinal, reservarCheck_pasa hv1 hv2 hv3 hv4,
        reservarCheck_pasa hv1' hv2' hv3' hv4', hver0, hver0',
        commit_libre c2 s0 hdisp', commit_ocupado c1 (s0 ++ [filaDe c2]) hocup2]
    rw [hrun]
    refine ⟨Or.inr ⟨rfl, rfl⟩, ?_, ?_, ?_⟩
    · rw [hact2]
      rfl
    · intro _
      exact Or.inr rfl
    · intro hcontra
      exact absurd hcontra (by simp)
  case a2b2a1b1 =>
    have hrun : runDos ahora s0 c1 c2 .a2b2a1b1 =
        (⟨false, .sinDisponibilidad c1.args.fecha c1.args.hora, none⟩,
         ⟨true, .reservaExitosa c2.args.fecha c2.args.hora c2.genId c2.emailOk,
          some (c2.genId, c2.args.fecha, c2.args.hora)⟩,
         s0 ++ [filaDe c2]) := by
      simp only [runDos, pasoFinal, reservarCheck_pasa hv1 hv2 hv3 hv4,
        reservarCheck_pasa hv1' hv2' hv3' hv4', hver0', hver2,
        commit_libre c2 s0 hdisp', commit_no_disponible]
    rw [hrun]
    refine ⟨Or.inr ⟨rfl, rfl⟩, ?_, ?_, ?_⟩
    · rw [hact2]
      rfl
    · intro _
      exact Or.inl rfl
    · intro hcontra
      exact absurd hcontra (by simp)

/-- C1 amended witness: Ana and Juan racing for the same slot on the empty
store under the serial interleaving. -/
theorem carrera_reservas_witness :
    llamadaJuan.args.fecha = llamadaAna.args.fecha ∧
    activosEn [] llamadaAna.args.fecha llamadaAna.args.hora = [] ∧
    ((runDos ahoraEj [] llamadaAna llamadaJuan .a1b1a2b2).1.exito = true ∧
        (runDos ahoraEj [] llamadaAna llamadaJuan .a1b1a2b2).2.1.exito = false ∨
      (runDos ahoraEj [] llamadaAna llamadaJuan .a1b1a2b2).1.exito = false ∧
        (runDos ahoraEj [] llamadaAna llamadaJuan .a1b1a2b2).2.1.exito = true) ∧
    (activosEn (runDos ahoraEj [] llamadaAna llamadaJuan .a1b1a2b2).2.2
      llamadaAna.args.fecha llamadaAna.args.hora).length = 1 := by
  have hr := carrera_reservas ahoraEj [] llamadaAna llamadaJuan
    (by decide) (by decide) (by decide) (by decide) (by decide) (by decide) (by decide)
    .a1b1a2b2
  exact ⟨by decide, by decide, hr.1, hr.2.1⟩
